import Mathlib

/-!
Verification of the `dids` dataset library (core.py, sets.py, nest.py,
auto_save.py) via a shallow embedding in Lean 4.

Python machinery is embedded as follows: a Python `dict` becomes an
association list or a `K → Option V` map; a raised exception becomes an
`Except Err` error value; a class instance becomes a record of its method
results.  Each definition carries a doc comment naming the source function
it embeds.
-/

namespace Dids

/-- Exception taxonomy of the library (errors.py plus the builtin Python
exceptions raised by the source).  `malformedKeyError` stands for the
KeyError raised with message "key must be tuple of length %d" by
NestedDataset, distinguished from a plain missing-key KeyError. -/
inductive Err where
  | keyError
  | valueError
  | attributeError
  | typeError
  | unwritableDatasetError
  | closedDatasetError
  | malformedKeyError
  deriving DecidableEq, Repr

/-- Decidable equality for `Except`, written by pattern matching so that
it evaluates by kernel reduction. -/
def exceptDecEq {ε α : Type} [DecidableEq ε] [DecidableEq α] :
    (a b : Except ε α) → Decidable (a = b)
  | .error e, .error f =>
      if h : e = f then isTrue (by rw [h])
      else isFalse (fun hc => h (by injection hc))
  | .ok x, .ok y =>
      if h : x = y then isTrue (by rw [h])
      else isFalse (fun hc => h (by injection hc))
  | .error _, .ok _ => isFalse (fun hc => Except.noConfusion hc)
  | .ok _, .error _ => isFalse (fun hc => Except.noConfusion hc)

instance {ε α : Type} [DecidableEq ε] [DecidableEq α] :
    DecidableEq (Except ε α) := exceptDecEq

/-- sets.py key-set universe: a finite Python set, the `_EntireSet`
singleton, or a `_NegativeSet` (complement of a finite exclusion set).
The exclusion set is carried as the list of its elements in the Python
iteration order of the set (a Python set holds no duplicates, but none of the
results below depend on that). -/
inductive KeySet (K : Type) where
  | finite : Finset K → KeySet K
  | entire : KeySet K
  | negative : List K → KeySet K

variable {K : Type}

/-- Decidable equality for `KeySet`, written by pattern matching so that
it evaluates by kernel reduction. -/
def keySetDecEq [DecidableEq K] : (a b : KeySet K) → Decidable (a = b)
  | .finite s, .finite t =>
      if h : s = t then isTrue (by rw [h])
      else isFalse (fun hc => h (by injection hc))
  | .negative s, .negative t =>
      if h : s = t then isTrue (by rw [h])
      else isFalse (fun hc => h (by injection hc))
  | .entire, .entire => isTrue rfl
  | .finite _, .entire => isFalse (fun hc => KeySet.noConfusion hc)
  | .finite _, .negative _ => isFalse (fun hc => KeySet.noConfusion hc)
  | .entire, .finite _ => isFalse (fun hc => KeySet.noConfusion hc)
  | .entire, .negative _ => isFalse (fun hc => KeySet.noConfusion hc)
  | .negative _, .finite _ => isFalse (fun hc => KeySet.noConfusion hc)
  | .negative _, .entire => isFalse (fun hc => KeySet.noConfusion hc)

instance [DecidableEq K] : DecidableEq (KeySet K) := keySetDecEq

/-- Membership test: `__contains__` of frozenset, `_EntireSet` (always
True) and `_NegativeSet` (`key not in self._neg`). -/
def kmem [DecidableEq K] : KeySet K → K → Bool
  | .finite s, k => k ∈ s
  | .entire, _ => true
  | .negative n, k => k ∉ n

/-- True for the `InfiniteSet` instances (`_EntireSet`, `_NegativeSet`). -/
def KeySet.isInfinite : KeySet K → Bool
  | .finite _ => false
  | .entire => true
  | .negative _ => true

/-- True exactly for the `_NegativeSet` variant. -/
def KeySet.isNeg : KeySet K → Bool
  | .negative _ => true
  | .finite _ => false
  | .entire => false

/-- sets.py `negative_set(neg)` for a finite Python-set argument: empty
exclusion set yields the `entire_set` singleton, otherwise a
`_NegativeSet` view.  (The `neg is _EntireSet` branch of the source
compares against the class object and cannot fire for a set argument.) -/
def negative_set (n : List K) : KeySet K :=
  if n.isEmpty then .entire else .negative n

/-- The loop body of `_NegativeSet.intersection`: `other = set(other)`
then `for key in self._neg: other.remove(key)`.  Python `set.remove`
raises KeyError when the element is absent, so the loop fails as soon as
an excluded key is not in `other`. -/
def removeAll [DecidableEq K] : List K → Finset K → Except Err (Finset K)
  | [], s => .ok s
  | k :: rest, s =>
      if k ∈ s then removeAll rest (s.erase k) else .error .keyError

/-- Python `len` on a key set: defined for finite sets, while
`InfiniteSet.__len__` raises ValueError. -/
def KeySet.len : KeySet K → Except Err Nat
  | .finite s => .ok s.card
  | .entire => .error .valueError
  | .negative _ => .error .valueError

/-- Intersection dispatch of sets.py.  `_EntireSet.intersection(other)`
returns `other` unchanged; a finite Python set intersects another finite
set normally but raises ValueError if asked to iterate an `InfiniteSet`
operand; `_NegativeSet.intersection` copies the (necessarily finite)
other side and removes each excluded key via `set.remove`. -/
def KeySet.inter [DecidableEq K] : KeySet K → KeySet K → Except Err (KeySet K)
  | .entire, other => .ok other
  | .finite a, .finite b => .ok (.finite (a ∩ b))
  | .finite _, _ => .error .valueError
  | .negative n, .finite b => (removeAll n b).map .finite
  | .negative _, _ => .error .valueError

/-- Union dispatch of sets.py.  `_EntireSet.union` returns itself;
finite sets union normally; `_NegativeSet.union(other)` removes the
members of `other` from a copy of the exclusion set (guarding membership,
unlike `intersection`) and rebuilds via `negative_set`. -/
def KeySet.union [DecidableEq K] : KeySet K → KeySet K → Except Err (KeySet K)
  | .entire, _ => .ok .entire
  | .finite a, .finite b => .ok (.finite (a ∪ b))
  | .finite _, _ => .error .valueError
  | .negative n, .finite b => .ok (negative_set (n.filter (fun k => k ∉ b)))
  | .negative _, _ => .error .valueError

/-- Python iteration over a key set: yields the elements of a finite
set in some order (modelled as the underlying multiset), while
`InfiniteSet.__iter__` raises ValueError. -/
def KeySet.iter : KeySet K → Except Err (Multiset K)
  | .finite s => .ok s.val
  | .entire => .error .valueError
  | .negative _ => .error .valueError

/-- core.py `key_intersection`: fold over the operands starting from
`entire_set`, always making an infinite operand the receiver so that it is
combined by `intersection` and never iterated. -/
def key_intersection [DecidableEq K] (l : List (KeySet K)) :
    Except Err (KeySet K) :=
  l.foldlM (fun s ks => if ks.isInfinite then ks.inter s else s.inter ks)
    .entire

/-!  Read-only face of a dataset object: the results of its `keys`,
`__contains__` and `__getitem__` methods, the three capabilities through
which the combinators consume their bases.  -/

/-- Read interface of a core.py `Dataset`. -/
structure DS (K V : Type) where
  keys : KeySet K
  contains : K → Bool
  get : K → Except Err V

variable {V A B W : Type}

/-- Python dict lookup on an association list (first binding wins, as a
dict never holds duplicate keys). -/
def pyLookup [DecidableEq K] : List (K × V) → K → Option V
  | [], _ => none
  | (k, v) :: rest, x => if x = k then some v else pyLookup rest x

/-- core.py `Dataset.from_dict` / `WrappedDictDataset`: `keys` are the
keys of the dict, `__contains__` is dict membership, `__getitem__` is dict
indexing (KeyError when absent). -/
def from_dict [DecidableEq K] (l : List (K × V)) : DS K V where
  keys := .finite (l.map Prod.fst).toFinset
  contains := fun k => (pyLookup l k).isSome
  get := fun k =>
    match pyLookup l k with
    | some v => .ok v
    | none => .error .keyError

/-- core.py `Dataset.from_function` / `FunctionDataset`: `_keys` is
`entire_set` when no key collection is given, else the frozen finite set;
`__getitem__` checks membership then applies the function. -/
def from_function [DecidableEq K] (f : K → V) (ks : Option (Finset K)) :
    DS K V where
  keys := match ks with | none => .entire | some s => .finite s
  contains := fun k =>
    kmem (match ks with | none => .entire | some s => .finite s) k
  get := fun k =>
    if kmem (match ks with | none => .entire | some s => .finite s) k then
      .ok (f k)
    else .error .keyError

/-- core.py `CompoundDataset.__contains__` specialised to two operands:
`all(key in d for d in self.datasets)`. -/
def zipContains (d0 : DS K A) (d1 : DS K B) (k : K) : Bool :=
  d0.contains k && d1.contains k

/-- core.py `ZippedDataset.__getitem__`: `tuple(d[key] for d in
self._datasets)`, evaluated left to right so the first missing operand
raises. -/
def zipGet (d0 : DS K A) (d1 : DS K B) (k : K) : Except Err (A × B) := do
  let v0 ← d0.get k
  let v1 ← d1.get k
  pure (v0, v1)

/-- core.py `CompoundDataset.keys`: `key_intersection(d.keys() for d in
self.datasets)`. -/
def zipKeys [DecidableEq K] (d0 : DS K A) (d1 : DS K B) :
    Except Err (KeySet K) :=
  key_intersection [d0.keys, d1.keys]

/-!  Resource lifecycle: core.py `Dataset.open_connection` /
`close_connection` over the `_clients` registry, with counters recording
how many times the `_open_resource` / `_close_resource` hooks have run. -/

/-- Registry state of one resource-owning dataset: the `_clients` set
plus counters of hook invocations. -/
structure LState where
  clients : Finset Nat
  opens : Nat
  closes : Nat
  deriving DecidableEq

/-- One registry operation: a view attaching to or detaching from the
shared base. -/
inductive LOp where
  | attach : Nat → LOp
  | detach : Nat → LOp
  deriving DecidableEq

/-- core.py `Dataset.open_connection`: when the registry is empty the
`_open_resource` hook runs (counted in `opens`), then the client is
added. -/
def open_connection (s : LState) (c : Nat) : LState :=
  { clients := insert c s.clients
    opens := if s.clients = ∅ then s.opens + 1 else s.opens
    closes := s.closes }

/-- core.py `Dataset.close_connection`: a client not in the registry
raises ValueError, leaving the object untouched; otherwise the client is
removed and, when the registry becomes empty, the `_close_resource` hook
runs (counted in `closes`). -/
def close_connection (s : LState) (c : Nat) : LState × Option Err :=
  if c ∈ s.clients then
    ({ clients := s.clients.erase c
       opens := s.opens
       closes := if s.clients.erase c = ∅ then s.closes + 1 else s.closes },
      none)
  else (s, some .valueError)

/-- Dispatch of one registry operation. -/
def lstep (s : LState) : LOp → LState × Option Err
  | .attach c => (open_connection s c, none)
  | .detach c => close_connection s c

/-- A sequence of registry operations; a raised ValueError aborts the
run, leaving the state it was raised from. -/
def lrun (s : LState) : List LOp → LState × Option Err
  | [] => (s, none)
  | op :: rest =>
      match lstep s op with
      | (t, none) => lrun t rest
      | (t, some e) => (t, some e)

/-- Freshly constructed dataset: `self._clients = set()`, no hook has
run. -/
def linit : LState := ⟨∅, 0, 0⟩

/-!  auto_save.py  -/

/-- auto_save.py `AutoSavingDataset.__getitem__`: missing source key
raises KeyError; a key already in `dst` is served from `dst`; otherwise
the value is read from `src` and the code then evaluates
`self.dst.save_item(key, value)` — but no class in the repository defines
a `save_item` attribute (core.py `Dataset` provides only `save_items`),
so the attribute lookup raises AttributeError before anything is
persisted or returned. -/
def autoSavingGet (src dst : DS K V) (k : K) : Except Err V :=
  if !src.contains k then .error .keyError
  else if dst.contains k then dst.get k
  else
    match src.get k with
    | .ok _ => .error .attributeError
    | .error e => .error e

/-!  Mutation model.  A plain Python dict is a map `K → Option V`; a
setter returns the updated store or the exception raised. -/

/-- Python dict item assignment `d[k] = v`. -/
def dctSet [DecidableEq K] (d : K → Option V) (k : K) (v : V) :
    K → Option V :=
  fun x => if x = k then some v else d x

/-- core.py `WrappedDictDataset.__setitem__`: `self._base[key] = value`
on the wrapped dict; never raises. -/
def wrappedDictSetItem [DecidableEq K] (d : K → Option V) (k : K) (v : V) :
    Except Err (K → Option V) :=
  .ok (dctSet d k v)

/-- core.py `MappedDataset.is_writable`: the property returns False. -/
def mappedIsWritable : Bool := false

/-- Item assignment on a `MappedDataset`.  The class defines no
`__setitem__`, so Python resolves it to `DelegatingDataset.__setitem__`,
which executes `self._base[key] = value` with no writability assertion;
`baseSetItem` is the `__setitem__` of the base dataset itself. -/
def mappedSetItem {σ : Type} (baseSetItem : K → V → Except Err σ)
    (k : K) (v : V) : Except Err σ :=
  baseSetItem k v

/-- Spec-mandated `__setitem__` of a Map view ("attempting `set` on it
fails with NotWritableError"), stated for comparison with
`mappedSetItem`. -/
def specMapSetItem {σ : Type} (_k : K) (_v : V) : Except Err σ :=
  .error .unwritableDatasetError

/-!  Subset and map combinators (core.py `DataSubset`,
`MappedDataset`).  -/

/-- core.py `DataSubset` construction over an open base: `_keys` is the
frozen key set and `_check_keys` raises KeyError when `check_present`
holds and some key is absent from the base.  The resulting view: `keys`
returns `_keys`; membership (inherited `Dataset.__contains__`) tests
`_keys`; `__getitem__` raises KeyError outside `_keys` and otherwise
delegates. -/
def dataSubset [DecidableEq K] (base : DS K V) (ks : Finset K)
    (check_present : Bool) : Except Err (DS K V) :=
  if check_present = true ∧ ¬∀ k ∈ ks, base.contains k = true then
    .error .keyError
  else
    .ok { keys := .finite ks
          contains := fun k => k ∈ ks
          get := fun k =>
            if k ∈ ks then base.get k else .error .keyError }

/-- core.py `MappedDataset` read face: `keys` delegates to the base
(`DelegatingDataset.keys`), `__contains__` tests the base, and
`__getitem__` is `self._map_fn(self._base[key])` — the exception of the base
propagates, otherwise the map function is applied. -/
def mapDS (base : DS K V) (f : V → W) : DS K W where
  keys := base.keys
  contains := base.contains
  get := fun k => (base.get k).map f

/-- core.py `MappedDataset.subset`: returns
`self._base.subset(keys, check_present).map(self._map_fn)`. -/
def mappedSubset [DecidableEq K] (base : DS K V) (f : V → W) (ks : Finset K)
    (check_present : Bool) : Except Err (DS K W) :=
  (dataSubset base ks check_present).map (fun d => mapDS d f)

/-!  core.py `Dataset.save_dataset` (bulk copy).  The destination is a
writable, open dict-like store modelled as `K → Option V`; the source is
its enumerated key list `ks` together with its `__getitem__` as a pure
function `g`. -/

/-- core.py `Dataset.save_dataset` with `overwrite=False`: the copy set
is `tuple(k for k in src.keys() if k not in self)`; when it is empty the
call returns at once; otherwise each copied key is deleted if present and
rewritten with the source value. -/
def saveDataset [DecidableEq K] (dest : K → Option V) (ks : List K)
    (g : K → V) : K → Option V :=
  let copyKeys := ks.filter (fun k => (dest k).isNone)
  copyKeys.foldl (fun d k => dctSet d k (g k)) dest

/-!  core.py / nest.py `NestedDataset`.  The base store is a tree of
nested Python dicts whose leaves hold values; a dict is an association
list (insertion-ordered, no duplicate keys). -/

/-- A node of the nested base store: a leaf value or a dict of
children. -/
inductive Nest (K V : Type) where
  | val : V → Nest K V
  | grp : List (K × Nest K V) → Nest K V

/-- Dict lookup inside a `grp` node. -/
def nfind [DecidableEq K] : List (K × Nest K V) → K → Option (Nest K V)
  | [], _ => none
  | (k, x) :: rest, y => if y = k then some x else nfind rest y

/-- Dict item assignment inside a `grp` node: replace the binding if
present, else append it. -/
def nupdate [DecidableEq K] :
    List (K × Nest K V) → K → Nest K V → List (K × Nest K V)
  | [], k, x => [(k, x)]
  | (k₀, x₀) :: rest, k, x =>
      if k = k₀ then (k, x) :: rest else (k₀, x₀) :: nupdate rest k x

/-- The traversal of `NestedDataset.__getitem__`: `for k in key: base =
base[k]`.  Indexing a dict with a missing key raises KeyError; indexing a
leaf value raises TypeError. -/
def nestedGetAux [DecidableEq K] : Nest K V → List K → Except Err (Nest K V)
  | base, [] => .ok base
  | .val _, _ :: _ => .error .typeError
  | .grp l, k :: rest =>
      match nfind l k with
      | some sub => nestedGetAux sub rest
      | none => .error .keyError

/-- The traversal of `NestedDataset.__setitem__`: `for k in key[:-1]:
base = base.setdefault(k, {})` then `base[key[-1]] = value`.  A
`setdefault` that finds an existing binding keeps it (even a leaf —
continuing then raises AttributeError), and a final assignment whose
receiver is a leaf raises TypeError. -/
def nestedSetAux [DecidableEq K] :
    Nest K V → List K → V → Except Err (Nest K V)
  | .grp l, [k], v => .ok (.grp (nupdate l k (.val v)))
  | .grp l, k :: k₁ :: rest, v =>
      match nestedSetAux ((nfind l k).getD (.grp [])) (k₁ :: rest) v with
      | .ok sub => .ok (.grp (nupdate l k sub))
      | .error e => .error e
  | .val _, [_], _ => .error .typeError
  | .val _, _ :: _ :: _, _ => .error .attributeError
  | _, [], _ => .error .typeError

/-- core.py `NestedDataset._assert_valid_key`: the key must be a tuple
of exactly `_depth` components, else a KeyError with the
"key must be tuple of length" message is raised before any traversal. -/
def validNestedKey (depth : Nat) (key : List K) : Bool :=
  key.length = depth

/-- core.py `NestedDataset.__getitem__`: arity check, then traversal. -/
def nestedGet [DecidableEq K] (depth : Nat) (base : Nest K V)
    (key : List K) : Except Err (Nest K V) :=
  if validNestedKey depth key then nestedGetAux base key
  else .error .malformedKeyError

/-- core.py `NestedDataset.__setitem__`: `_assert_writable` (the
delegated flag of the base), then the arity check, then the traversal
with `setdefault` creating intermediate dicts on demand. -/
def nestedSet [DecidableEq K] (writable : Bool) (depth : Nat)
    (base : Nest K V) (key : List K) (v : V) : Except Err (Nest K V) :=
  if !writable then .error .unwritableDatasetError
  else if validNestedKey depth key then nestedSetAux base key v
  else .error .malformedKeyError

/-- Concrete datasets of the zip scenario in the spec: `d0 = from_dict({'x':
1, 'y': 3})` and `d1 = from_function(lambda k: k*3)` (string repetition
on a string key). -/
def zipExampleDict : DS String Int := from_dict [("x", 1), ("y", 3)]

/-- The function-backed operand of the zip scenario. -/
def zipExampleFn : DS String String :=
  from_function (fun k => k ++ k ++ k) none

/-!  Helper lemmas. -/

/-- Lookup after the write loop of `save_dataset`: a key in the written
list holds the source value, any other key is untouched. -/
theorem foldl_dctSet_get [DecidableEq K] (g : K → V) :
    ∀ (l : List K) (d : K → Option V) (x : K),
      (l.foldl (fun d k => dctSet d k (g k)) d) x
        = if x ∈ l then some (g x) else d x := by
  intro l
  induction l with
  | nil => intro d x; simp
  | cons k rest ih =>
      intro d x
      simp only [List.foldl_cons]
      rw [ih]
      by_cases hx : x ∈ rest
      · simp [hx]
      · by_cases hk : x = k <;> simp [dctSet, hx, hk]

/-- Pointwise description of `save_dataset` with `overwrite=False`: a
source key absent from the destination receives the source value, every
other key keeps its destination value. -/
theorem saveDataset_get [DecidableEq K] (dest : K → Option V)
    (ks : List K) (g : K → V) (x : K) :
    saveDataset dest ks g x
      = if x ∈ ks ∧ (dest x).isNone = true then some (g x) else dest x := by
  simp only [saveDataset]
  rw [foldl_dctSet_get]
  simp only [List.mem_filter]

/-- Dict lookup after dict update at the same key. -/
theorem nfind_nupdate_self [DecidableEq K] (k : K) (x : Nest K V) :
    ∀ l : List (K × Nest K V), nfind (nupdate l k x) k = some x := by
  intro l
  induction l with
  | nil => simp [nupdate, nfind]
  | cons p rest ih =>
      obtain ⟨k₀, x₀⟩ := p
      by_cases h : k = k₀
      · simp [nupdate, h, nfind]
      · simp [nupdate, h, nfind, ih]

/-- Round trip of the nested traversals: whenever the `__setitem__`
walk succeeds, the `__getitem__` walk on the same key reaches the leaf
just written. -/
theorem nestedSetAux_roundtrip [DecidableEq K] (v : V) :
    ∀ key : List K, key ≠ [] → ∀ base base' : Nest K V,
      nestedSetAux base key v = .ok base' →
      nestedGetAux base' key = .ok (.val v) := by
  intro key
  induction key with
  | nil => intro h; exact absurd rfl h
  | cons k rest ih =>
      intro _ base base' hset
      cases base with
      | val w => cases rest <;> simp [nestedSetAux] at hset
      | grp l =>
          cases rest with
          | nil =>
              simp only [nestedSetAux, Except.ok.injEq] at hset
              subst hset
              simp [nestedGetAux, nfind_nupdate_self]
          | cons k₁ rest' =>
              rcases hsub : nestedSetAux ((nfind l k).getD (.grp []))
                  (k₁ :: rest') v with e | sub
              · rw [nestedSetAux, hsub] at hset
                exact Except.noConfusion hset
              · rw [nestedSetAux, hsub] at hset
                injection hset with hset
                subst hset
                simp only [nestedGetAux, nfind_nupdate_self]
                exact ih (List.cons_ne_nil _ _) _ _ hsub

/-!  The claim theorems. -/

/-- C1: the `_open_resource` hook fires exactly on attaches that find an
empty registry (empty-to-nonempty transition) and the `_close_resource`
hook exactly on detaches that empty the registry; in the shared-leaf
scenario, after open V1, open V2, close V1 the resource has been acquired
once and released never, and the final close of V2 releases it exactly
once. -/
theorem lifecycle_refcounting :
    (∀ (s : LState) (c : Nat),
        ((open_connection s c).opens = s.opens + 1 ↔ s.clients = ∅)
        ∧ (open_connection s c).closes = s.closes
        ∧ (open_connection s c).clients ≠ ∅)
    ∧ (∀ (s : LState) (c : Nat), c ∈ s.clients →
        close_connection s c =
          ({ clients := s.clients.erase c
             opens := s.opens
             closes := if s.clients.erase c = ∅ then s.closes + 1
                       else s.closes }, none))
    ∧ lrun linit [.attach 1, .attach 2, .detach 1] = (⟨{2}, 1, 0⟩, none)
    ∧ lrun linit [.attach 1, .attach 2, .detach 1, .detach 2]
        = (⟨∅, 1, 1⟩, none) := by
  refine ⟨fun s c => ⟨?_, rfl, ?_⟩, fun s c h => ?_, by decide, by decide⟩
  · by_cases h : s.clients = ∅ <;> simp [open_connection, h]
  · exact Finset.insert_ne_empty c s.clients
  · simp [close_connection, h]

/-- C1 witness: closing one of two registered clients raises nothing and
does not run the release hook. -/
theorem lifecycle_refcounting_witness :
    close_connection ⟨{1, 2}, 1, 0⟩ 1 = (⟨{2}, 1, 0⟩, none) := by
  have h := lifecycle_refcounting.2.1 ⟨{1, 2}, 1, 0⟩ 1 (by decide)
  rw [h]
  decide

/-- C2: evaluates the code at the failing input of the claim.
`negative_set({'a'})` intersected with the empty finite set raises
KeyError (Python `set.remove` on an absent element), whereas the claimed
result `B.difference(A)` is the empty set. -/
theorem negative_intersection_raises :
    KeySet.inter (negative_set [(0 : ℕ)]) (.finite ∅) = .error .keyError
    ∧ (∅ : Finset ℕ) \ {0} = ∅ := by
  exact ⟨by decide, by decide⟩

/-- C3: evaluates the code at the failing input of the claim.  For a
pure-function source containing key "k" and an empty destination, the
first `get("k")` raises AttributeError (no `save_item` method exists
anywhere in the repository) instead of persisting and returning the
value the source would have produced. -/
theorem auto_save_get_attribute_error :
    autoSavingGet (from_function (fun k : String => k) none)
        (from_dict ([] : List (String × String))) "k"
      = .error .attributeError
    ∧ (from_function (fun k : String => k) none).get "k" = .ok "k" := by
  exact ⟨rfl, rfl⟩

/-- C4: evaluates the code at the failing input of the claim.
`is_writable` of a Map view is False, yet item assignment on the view
succeeds (no `UnwritableDatasetError`) and mutates the writable base:
after `mapped["x"] = 5` the base dict maps "x" to 5 where it held 1,
while the spec-mandated behaviour is the `UnwritableDatasetError`. -/
theorem mapped_setitem_writes_through :
    mappedIsWritable = false
    ∧ mappedSetItem
        (wrappedDictSetItem (dctSet (fun _ => none) "x" (1 : Int))) "x" 5
        = .ok (dctSet (dctSet (fun _ => none) "x" 1) "x" 5)
    ∧ dctSet (dctSet (fun _ : String => none) "x" (1 : Int)) "x" 5 "x"
        = some 5
    ∧ dctSet (fun _ : String => none) "x" (1 : Int) "x" = some 1
    ∧ specMapSetItem (σ := String → Option Int) "x" (5 : Int)
        = .error .unwritableDatasetError := by
  exact ⟨rfl, rfl, rfl, rfl, rfl⟩

/-- C5: zipped get returns the pair of operand values on a key both
contain; membership is false when either operand misses the key; the
zipped key set is exactly the intersection of the operand key sets, with
an entire-set operand combined by `intersection` (never iterated); and
the concrete scenario of the spec evaluates as claimed. -/
theorem zip_alignment {K A B : Type} [DecidableEq K] :
    (∀ (d0 : DS K A) (d1 : DS K B) (k : K) (v0 : A) (v1 : B),
        d0.get k = .ok v0 → d1.get k = .ok v1 →
        zipGet d0 d1 k = .ok (v0, v1))
    ∧ (∀ (d0 : DS K A) (d1 : DS K B) (k : K),
        d0.contains k = false ∨ d1.contains k = false →
        zipContains d0 d1 k = false)
    ∧ (∀ (d0 : DS K A) (d1 : DS K B),
        d0.keys.isNeg = false → d1.keys.isNeg = false →
        ∃ s, zipKeys d0 d1 = .ok s
          ∧ ∀ k, kmem s k = (kmem d0.keys k && kmem d1.keys k))
    ∧ zipGet zipExampleDict zipExampleFn "x" = .ok (1, "xxx")
    ∧ zipContains zipExampleDict zipExampleFn "z" = false
    ∧ zipGet zipExampleDict zipExampleFn "z" = .error .keyError
    ∧ zipKeys zipExampleDict zipExampleFn = .ok (.finite {"x", "y"}) := by
  refine ⟨?_, ?_, ?_, rfl, rfl, rfl, by decide⟩
  · intro d0 d1 k v0 v1 h0 h1
    simp only [zipGet, h0, h1]
    rfl
  · intro d0 d1 k h
    rcases h with h | h <;> simp [zipContains, h]
  · intro d0 d1 h0 h1
    simp only [zipKeys]
    rcases hk0 : d0.keys with A | _ | n <;>
      rcases hk1 : d1.keys with B | _ | m
    · exact ⟨.finite (A ∩ B), rfl, fun k => by
        by_cases hA : k ∈ A <;> by_cases hB : k ∈ B <;>
          simp [kmem, hA, hB]⟩
    · exact ⟨.finite A, rfl, fun k => by simp [kmem]⟩
    · rw [hk1] at h1; simp [KeySet.isNeg] at h1
    · exact ⟨.finite B, rfl, fun k => by simp [kmem]⟩
    · exact ⟨.entire, rfl, fun k => by simp [kmem]⟩
    · rw [hk1] at h1; simp [KeySet.isNeg] at h1
    · rw [hk0] at h0; simp [KeySet.isNeg] at h0
    · rw [hk0] at h0; simp [KeySet.isNeg] at h0
    · rw [hk0] at h0; simp [KeySet.isNeg] at h0

/-- C5 witness: the general parts of the alignment theorem applied at
the concrete scenario datasets. -/
theorem zip_alignment_witness :
    zipGet zipExampleDict zipExampleFn "y" = .ok (3, "yyy")
    ∧ zipContains zipExampleDict zipExampleFn "q" = false := by
  have h := zip_alignment (K := String) (A := Int) (B := String)
  exact ⟨h.1 zipExampleDict zipExampleFn "y" 3 "yyy" rfl rfl,
         h.2.1 zipExampleDict zipExampleFn "q" (Or.inl rfl)⟩

/-- C6: `entire_set` is the identity of intersection (the other operand
is returned unchanged) and absorbing for union; it contains every key;
`negative_set` of an empty exclusion set is the `entire_set` singleton;
and taking its length or iterating it raises. -/
theorem entire_set_algebra {K : Type} [DecidableEq K] :
    (∀ A : Finset K, KeySet.inter .entire (.finite A) = .ok (.finite A))
    ∧ (∀ x : KeySet K, KeySet.union .entire x = .ok .entire)
    ∧ (∀ k : K, kmem .entire k = true)
    ∧ negative_set ([] : List K) = .entire
    ∧ KeySet.len (.entire : KeySet K) = .error .valueError
    ∧ KeySet.iter (.entire : KeySet K) = .error .valueError := by
  exact ⟨fun A => rfl, fun x => rfl, fun k => rfl, rfl, rfl, rfl⟩

/-- C7: a second `save_dataset(overwrite=False)` run has an empty copy
set and leaves the destination exactly as one run left it, and
pre-existing destination entries survive a run unmodified. -/
theorem save_dataset_idempotent {K V : Type} [DecidableEq K] :
    ∀ (dest : K → Option V) (ks : List K) (g : K → V),
      saveDataset (saveDataset dest ks g) ks g = saveDataset dest ks g
      ∧ ks.filter (fun k => ((saveDataset dest ks g) k).isNone) = []
      ∧ ∀ (k : K) (v : V), dest k = some v →
          saveDataset dest ks g k = some v := by
  intro dest ks g
  have hfil : ks.filter (fun k => ((saveDataset dest ks g) k).isNone)
      = [] := by
    rw [List.filter_eq_nil_iff]
    intro k hk
    rw [saveDataset_get]
    by_cases hd : (dest k).isNone = true
    · simp [hk, hd]
    · simp [hk, hd]
  refine ⟨?_, hfil, ?_⟩
  · conv_lhs => rw [saveDataset]
    rw [hfil]
    rfl
  · intro k v hv
    rw [saveDataset_get]
    simp [hv]

/-- C7 witness: a destination entry written before the copy is still
there after it. -/
theorem save_dataset_idempotent_witness :
    saveDataset (dctSet (fun _ => none) 0 (5 : ℕ)) [0, 1] (fun k => k) 0
      = some 5 :=
  (save_dataset_idempotent (dctSet (fun _ => none) 0 5) [0, 1]
    (fun k => k)).2.2 0 5 rfl

/-- C8: on a writable nested view of depth 3, a successful set of a
3-tuple key followed by a get of the same key returns the written value
(intermediate dicts created on demand), while a 1-tuple key makes both
set and get fail with the malformed-key condition without touching the
base. -/
theorem nested_roundtrip_arity {K V : Type} [DecidableEq K] :
    (∀ (base base' : Nest K V) (k₁ k₂ k₃ : K) (v : V),
        nestedSet true 3 base [k₁, k₂, k₃] v = .ok base' →
        nestedGet 3 base' [k₁, k₂, k₃] = .ok (.val v))
    ∧ (∀ (base : Nest K V) (k : K) (v : V),
        nestedSet true 3 base [k] v = .error .malformedKeyError)
    ∧ (∀ (base : Nest K V) (k : K),
        nestedGet 3 base [k] = .error .malformedKeyError) := by
  refine ⟨?_, fun base k v => rfl, fun base k => rfl⟩
  intro base base' k₁ k₂ k₃ v h
  rw [nestedSet] at h
  rw [nestedGet]
  simp only [Bool.not_true, validNestedKey, List.length_cons,
    List.length_nil] at h ⊢
  norm_num at h ⊢
  exact nestedSetAux_roundtrip v _ (List.cons_ne_nil _ _) base base' h

/-- C8 witness: the round trip applied to an initially empty base store
with key ("a", "a", "a"). -/
theorem nested_roundtrip_arity_witness :
    nestedGet 3
      (Nest.grp [("a", Nest.grp [("a", Nest.grp [("a", Nest.val (1 : Int))])])])
      ["a", "a", "a"] = .ok (.val 1) :=
  nested_roundtrip_arity.1 (.grp [])
    (Nest.grp [("a", Nest.grp [("a", Nest.grp [("a", Nest.val (1 : Int))])])])
    "a" "a" "a" 1 rfl

/-- C9: detaching a client that is not in the registry raises ValueError
and leaves the registry, the hook counters, and hence the open/closed state of the
resource untouched. -/
theorem close_unregistered_raises :
    ∀ (s : LState) (c : Nat), c ∉ s.clients →
      close_connection s c = (s, some .valueError) := by
  intro s c h
  simp [close_connection, h]

/-- C9 witness: detaching from a freshly constructed dataset raises and
changes nothing. -/
theorem close_unregistered_raises_witness :
    close_connection linit 3 = (linit, some .valueError) :=
  close_unregistered_raises linit 3 (by decide)

/-- C10: the subset method of a Map view produces exactly the dataset
that subsetting first and mapping afterwards produces (and the generic
subset of the mapped view is the same dataset); on a key collection
whose members the base contains, the keys of the result are the frozen
collection, its get applies the map function to the value of the base on
members, and raises KeyError off members. -/
theorem map_subset_commute {K V W : Type} [DecidableEq K] :
    (∀ (base : DS K V) (f : V → W) (ks : Finset K) (cp : Bool),
        mappedSubset base f ks cp = dataSubset (mapDS base f) ks cp)
    ∧ (∀ (base : DS K V) (f : V → W) (ks : Finset K),
        (∀ k ∈ ks, base.contains k = true) →
        ∃ D, mappedSubset base f ks true = .ok D
          ∧ D.keys = .finite ks
          ∧ (∀ k ∈ ks, D.get k = (base.get k).map f)
          ∧ (∀ k ∉ ks, D.get k = .error .keyError)) := by
  constructor
  · intro base f ks cp
    by_cases h : cp = true ∧ ¬∀ k ∈ ks, base.contains k = true
    · simp only [mappedSubset, dataSubset, mapDS, h, if_true]
      rfl
    · simp only [mappedSubset, dataSubset, mapDS, h, if_false,
        Except.map]
      refine congrArg Except.ok ?_
      refine congrArg (DS.mk (.finite ks) fun k => decide (k ∈ ks)) ?_
      funext k
      by_cases hk : k ∈ ks
      · simp [hk]
      · simp [hk, Except.map]
  · intro base f ks hK
    refine ⟨mapDS
        { keys := .finite ks
          contains := fun k => k ∈ ks
          get := fun k =>
            if k ∈ ks then base.get k else .error .keyError } f,
      ?_, rfl, fun k hk => ?_, fun k hk => ?_⟩
    · rw [mappedSubset, dataSubset, if_neg]
      · rfl
      · intro hcontra; exact hcontra.2 hK
    · simp [mapDS, hk]
    · simp [mapDS, hk, Except.map]

/-- C10 witness: the commuted subset over a one-entry dict maps the
stored value. -/
theorem map_subset_commute_witness :
    ∃ D : DS String Int,
      mappedSubset (from_dict [("x", (1 : Int))]) (fun v => v * 2)
        {"x"} true = .ok D
      ∧ D.get "x" = .ok 2 := by
  obtain ⟨D, hD, hkeys, hin, hout⟩ :=
    map_subset_commute.2 (from_dict [("x", (1 : Int))]) (fun v => v * 2)
      {"x"} (by decide)
  refine ⟨D, hD, ?_⟩
  rw [hin "x" (by decide)]
  rfl

end Dids
